import Mathlib

/-!
Shallow embedding of `src/server.js` (SightShare backend): an Express +
SQLite CRUD server with two tables (`guests`, `orders`), JSON-serialized
photo lists, CSV export and a stats endpoint.

Modelling choices:
* The SQLite database is a record of two row lists (kept in insertion
  order), the two `AUTOINCREMENT` counters, and a monotone clock used for
  the server-assigned `created_at` column (`DATETIME DEFAULT
  CURRENT_TIMESTAMP`).
* JavaScript request-body fields are `Option String` (absent or a
  string); JS truthiness of a string is non-emptiness.  The `photos`
  body field is `Option (List String)`: a *present* array is always
  truthy in JS, even when empty.
* `JSON.stringify` of an array of strings and the corresponding
  `JSON.parse` on the read path are embedded character-for-character
  (including the escape table of `JSON.stringify`); the parser covers
  exactly the grammar that `stringify` emits, which is the only input the
  read path ever sees for rows written by this server.
* `ORDER BY created_at DESC` is modelled by `List.insertionSort` with the
  relation `b.created_at ≤ a.created_at`.
* A store-level failure can only be injected where a claim talks about
  it (the stats endpoint); all other operations are modelled on their
  non-failing path.
-/

/-- Truthiness of a JS string-valued body field: present and non-empty. -/
def truthy : Option String → Bool
  | none => false
  | some s => !s.isEmpty

/-- Models the JS expression `v || d` for a string `v`: the default is used
when `v` is absent or falsy (the empty string). -/
def jsOrDefault (v : Option String) (d : String) : String :=
  match v with
  | none => d
  | some s => if s.isEmpty then d else s

/-! ### JSON.stringify for arrays of strings -/

/-- Lower-case hexadecimal digit, as used by `JSON.stringify` in
`\u00XX` escapes. -/
def hexDigitChar (n : Nat) : Char :=
  if n < 10 then Char.ofNat (48 + n) else Char.ofNat (87 + n)

/-- The escape table of `JSON.stringify` for one character of a string:
quote and backslash get a backslash escape, the five named control
characters get their short escapes, the remaining control characters get
`\u00XX`, and every other character is emitted verbatim. -/
def escapeChar (c : Char) : List Char :=
  if c = '"' then ['\\', '"']
  else if c = '\\' then ['\\', '\\']
  else if c = '\x08' then ['\\', 'b']
  else if c = '\x0c' then ['\\', 'f']
  else if c = '\n' then ['\\', 'n']
  else if c = '\r' then ['\\', 'r']
  else if c = '\t' then ['\\', 't']
  else if c.toNat < 32 then
    ['\\', 'u', '0', '0', hexDigitChar (c.toNat / 16), hexDigitChar (c.toNat % 16)]
  else [c]

/-- Characters of `JSON.stringify` applied to one string, i.e. every
character escaped, between double quotes. -/
def escapeString (s : List Char) : List Char :=
  (s.map escapeChar).flatten

/-- One JSON string literal: `"` + escaped body + `"`. -/
def quoteChars (s : List Char) : List Char :=
  '"' :: (escapeString s ++ ['"'])

/-- Models `Array.prototype.join(",")` on the already-rendered elements. -/
def joinComma : List (List Char) → List Char
  | [] => []
  | [x] => x
  | x :: xs => x ++ ',' :: joinComma xs

/-- Models `JSON.stringify(photos)` for an array of strings:
`[` + the quoted elements joined by `,` + `]`. -/
def stringifyPhotos (l : List String) : String :=
  ⟨'[' :: (joinComma (l.map fun s => quoteChars s.data) ++ [']'])⟩

/-! ### JSON.parse, on the grammar emitted by stringifyPhotos -/

/-- Value of one hexadecimal digit, or `none`. -/
def hexVal (c : Char) : Option Nat :=
  if '0' ≤ c ∧ c ≤ '9' then some (c.toNat - 48)
  else if 'a' ≤ c ∧ c ≤ 'f' then some (c.toNat - 87)
  else if 'A' ≤ c ∧ c ≤ 'F' then some (c.toNat - 55)
  else none

/-- The inverse of the short escapes accepted after a backslash. -/
def unescapeSimple (c : Char) : Option Char :=
  if c = '"' then some '"'
  else if c = '\\' then some '\\'
  else if c = '/' then some '/'
  else if c = 'b' then some '\x08'
  else if c = 'f' then some '\x0c'
  else if c = 'n' then some '\n'
  else if c = 'r' then some '\r'
  else if c = 't' then some '\t'
  else none

/-- Parses the body of a JSON string literal after the opening quote,
returning the decoded characters together with the input remaining after
the closing quote; `none` on malformed input (a `JSON.parse` throw). -/
def parseStringBody : List Char → Option (List Char × List Char)
  | [] => none
  | '"' :: rest => some ([], rest)
  | '\\' :: 'u' :: h1 :: h2 :: h3 :: h4 :: rest =>
    match hexVal h1, hexVal h2, hexVal h3, hexVal h4 with
    | some a, some b, some c, some d =>
      let n := ((a * 16 + b) * 16 + c) * 16 + d
      if n.isValidChar then
        (parseStringBody rest).map fun p => (Char.ofNat n :: p.1, p.2)
      else none
    | _, _, _, _ => none
  | '\\' :: e :: rest =>
    match unescapeSimple e with
    | some c => (parseStringBody rest).map fun p => (c :: p.1, p.2)
    | none => none
  | c :: rest =>
    (parseStringBody rest).map fun p => (c :: p.1, p.2)

/-- Parses the comma-separated string literals of a non-empty JSON array,
up to and including the closing `]` (which must end the input).  Fuel
bounds the number of elements; it is instantiated with the input length,
which always suffices. -/
def parseItems : Nat → List Char → Option (List (List Char))
  | 0, _ => none
  | f + 1, '"' :: rest =>
    match parseStringBody rest with
    | some (s, ']' :: []) => some [s]
    | some (s, ',' :: r2) => (parseItems f r2).map fun xs => s :: xs
    | _ => none
  | _ + 1, _ => none

/-- Models `JSON.parse` applied to the output of `stringifyPhotos`:
either the empty array `[]` or a non-empty comma-separated array of
string literals; `none` models a `JSON.parse` throw. -/
def parsePhotos (s : String) : Option (List String) :=
  match s.data with
  | '[' :: ']' :: [] => some []
  | '[' :: rest => (parseItems rest.length rest).map fun xs => xs.map List.asString
  | _ => none

/-! ### Data model: the two tables of `initDatabase` -/

/-- One row of the `guests` table. -/
structure GuestRow where
  id : Nat
  name : String
  email : String
  gallery_name : String
  gallery_id : String
  visit_date : String
  created_at : Nat
deriving DecidableEq, Repr

/-- One row of the `orders` table; `photos` holds the serialized JSON
text, exactly as stored. -/
structure OrderRow where
  id : Nat
  name : String
  email : String
  gallery_name : String
  gallery_id : String
  photo_count : Nat
  photos : String
  submitted_at : String
  created_at : Nat
deriving DecidableEq, Repr

/-- An order as returned by the read paths: the stored row with the
`photos` column parsed back into a structured list
(`{...order, photos: JSON.parse(order.photos)}`). -/
structure OrderOut where
  id : Nat
  name : String
  email : String
  gallery_name : String
  gallery_id : String
  photo_count : Nat
  photos : List String
  submitted_at : String
  created_at : Nat
deriving DecidableEq, Repr

/-- The SQLite database: the two tables in insertion order, the two
`AUTOINCREMENT` counters (persistent across deletes), and a monotone
clock supplying `created_at` values. -/
structure DB where
  guests : List GuestRow
  orders : List OrderRow
  nextGuestId : Nat
  nextOrderId : Nat
  clock : Nat
deriving DecidableEq, Repr

/-- The freshly initialized database: both tables empty, both
`AUTOINCREMENT` sequences starting at 1. -/
def initDB : DB := ⟨[], [], 1, 1, 0⟩

/-- Request body of `POST /api/guests`. -/
structure GuestBody where
  name : Option String
  email : Option String
  galleryName : Option String
  galleryId : Option String
  visitDate : Option String
deriving DecidableEq, Repr

/-- Request body of `POST /api/orders`. -/
structure OrderBody where
  name : Option String
  email : Option String
  galleryName : Option String
  galleryId : Option String
  photos : Option (List String)
  submittedAt : Option String
deriving DecidableEq, Repr

/-- The JSON responses of the mutating handlers. -/
inductive Resp where
  | created (id : Nat)
  | badRequest (error : String)
  | deletedOne
  | cleared (deleted : Nat)
deriving DecidableEq, Repr

/-! ### Mutating handlers -/

/-- Handler of `POST /api/guests`: presence check on the four required
fields (`!name || !email || !galleryName || !galleryId`), then a
parameterized insert with `visitDate || new Date().toISOString()` and the
server-assigned id and `created_at`. -/
def createGuest (s : DB) (nowIso : String) (b : GuestBody) : DB × Resp :=
  if !truthy b.name || !truthy b.email || !truthy b.galleryName || !truthy b.galleryId then
    (s, .badRequest "Missing required fields")
  else
    let row : GuestRow :=
      { id := s.nextGuestId
        name := b.name.getD ""
        email := b.email.getD ""
        gallery_name := b.galleryName.getD ""
        gallery_id := b.galleryId.getD ""
        visit_date := jsOrDefault b.visitDate nowIso
        created_at := s.clock }
    ({ s with guests := s.guests ++ [row]
              nextGuestId := s.nextGuestId + 1
              clock := s.clock + 1 },
     .created s.nextGuestId)

/-- Handler of `POST /api/orders`: presence check
(`!name || !email || !galleryName || !galleryId || !photos`; a present
array is truthy in JS even when empty), then
`photoCount = photos.length`, `photosJson = JSON.stringify(photos)` and a
parameterized insert with `submittedAt || new Date().toISOString()`. -/
def createOrder (s : DB) (nowIso : String) (b : OrderBody) : DB × Resp :=
  match b.photos with
  | none => (s, .badRequest "Missing required fields")
  | some ps =>
    if !truthy b.name || !truthy b.email || !truthy b.galleryName || !truthy b.galleryId then
      (s, .badRequest "Missing required fields")
    else
      let row : OrderRow :=
        { id := s.nextOrderId
          name := b.name.getD ""
          email := b.email.getD ""
          gallery_name := b.galleryName.getD ""
          gallery_id := b.galleryId.getD ""
          photo_count := ps.length
          photos := stringifyPhotos ps
          submitted_at := jsOrDefault b.submittedAt nowIso
          created_at := s.clock }
      ({ s with orders := s.orders ++ [row]
                nextOrderId := s.nextOrderId + 1
                clock := s.clock + 1 },
       .created s.nextOrderId)

/-- Handler of `DELETE /api/guests/:id` (`DELETE FROM guests WHERE
id = ?`): always a success response; the second component is the
value of `this.changes` for the statement (rows removed). -/
def deleteGuestById (s : DB) (id : Nat) : DB × Resp × Nat :=
  let remaining := s.guests.filter fun g => g.id ≠ id
  ({ s with guests := remaining }, .deletedOne, s.guests.length - remaining.length)

/-- Handler of `DELETE /api/orders/:id`, same shape as the guest one. -/
def deleteOrderById (s : DB) (id : Nat) : DB × Resp × Nat :=
  let remaining := s.orders.filter fun o => o.id ≠ id
  ({ s with orders := remaining }, .deletedOne, s.orders.length - remaining.length)

/-- Handler of `DELETE /api/guests` (`DELETE FROM guests`): the response
carries `deleted: this.changes`. -/
def deleteAllGuests (s : DB) : DB × Resp :=
  ({ s with guests := [] }, .cleared s.guests.length)

/-- Handler of `DELETE /api/orders`. -/
def deleteAllOrders (s : DB) : DB × Resp :=
  ({ s with orders := [] }, .cleared s.orders.length)

/-! ### Read paths -/

/-- Descending comparison on `created_at`, the `ORDER BY created_at
DESC` of every select in the server. -/
def createdGeG (a b : GuestRow) : Prop := b.created_at ≤ a.created_at

/-- Descending comparison on `created_at` for order rows. -/
def createdGeO (a b : OrderRow) : Prop := b.created_at ≤ a.created_at

instance : DecidableRel createdGeG := fun _ _ => Nat.decLe _ _

instance : DecidableRel createdGeO := fun _ _ => Nat.decLe _ _

instance : IsTotal GuestRow createdGeG :=
  ⟨fun a b => by unfold createdGeG; omega⟩

instance : IsTrans GuestRow createdGeG :=
  ⟨fun a b c h1 h2 => by unfold createdGeG at *; omega⟩

instance : IsTotal OrderRow createdGeO :=
  ⟨fun a b => by unfold createdGeO; omega⟩

instance : IsTrans OrderRow createdGeO :=
  ⟨fun a b c h1 h2 => by unfold createdGeO at *; omega⟩

/-- Result set of `SELECT * FROM guests ORDER BY created_at DESC`. -/
def sortGuestsDesc (l : List GuestRow) : List GuestRow :=
  l.insertionSort createdGeG

/-- Result set of `SELECT * FROM orders ... ORDER BY created_at DESC`. -/
def sortOrdersDesc (l : List OrderRow) : List OrderRow :=
  l.insertionSort createdGeO

/-- Handler of `GET /api/guests`. -/
def listAllGuests (s : DB) : List GuestRow :=
  sortGuestsDesc s.guests

/-- One row of the order read path:
`{...order, photos: JSON.parse(order.photos)}`; `none` models a
`JSON.parse` throw on a malformed `photos` column. -/
def parseRow (r : OrderRow) : Option OrderOut :=
  (parsePhotos r.photos).map fun ps =>
    { id := r.id
      name := r.name
      email := r.email
      gallery_name := r.gallery_name
      gallery_id := r.gallery_id
      photo_count := r.photo_count
      photos := ps
      submitted_at := r.submitted_at
      created_at := r.created_at }

/-- Total variant of `parseRow` used to state results when every row is
known to parse. -/
def parseRowD (r : OrderRow) : OrderOut :=
  { id := r.id
    name := r.name
    email := r.email
    gallery_name := r.gallery_name
    gallery_id := r.gallery_id
    photo_count := r.photo_count
    photos := (parsePhotos r.photos).getD []
    submitted_at := r.submitted_at
    created_at := r.created_at }

/-- Models `rows.map(order => (...order with photos JSON-parsed))`: the
first throwing `JSON.parse` aborts the whole response. -/
def parseAll : List OrderRow → Option (List OrderOut)
  | [] => some []
  | r :: rs =>
    match parseRow r, parseAll rs with
    | some o, some os => some (o :: os)
    | _, _ => none

/-- Handler of `GET /api/orders`. -/
def listAllOrders (s : DB) : Option (List OrderOut) :=
  parseAll (sortOrdersDesc s.orders)

/-- Handler of `GET /api/orders/:galleryId`
(`SELECT * FROM orders WHERE gallery_id = ? ORDER BY created_at DESC`). -/
def listByGallery (s : DB) (galleryId : String) : Option (List OrderOut) :=
  parseAll (sortOrdersDesc (s.orders.filter fun o => o.gallery_id == galleryId))

/-! ### Stats endpoint -/

/-- The `stats` object of `GET /api/stats`. -/
structure Stats where
  totalGuests : Nat
  totalOrders : Nat
  totalPhotosOrdered : Nat
deriving DecidableEq, Repr

/-- Models `SELECT SUM(photo_count) FROM orders`: SQL `SUM` is `NULL` on
an empty table, otherwise the sum. -/
def sqlSumPhotoCount (l : List OrderRow) : Option Nat :=
  match l with
  | [] => none
  | _ => some (l.map (fun o => o.photo_count)).sum

/-- Models the JS expression `row.count || 0` applied to the result of
the `SUM` aggregate. -/
def jsOrZero (v : Option Nat) : Nat :=
  match v with
  | none => 0
  | some n => if n = 0 then 0 else n

/-- Handler of `GET /api/stats`: three nested aggregate queries, each of
which can fail; the first failure short-circuits the whole response with
a database error (HTTP 500). the three flags inject a store-level
failure into the corresponding query. -/
def getStats (s : DB) (failGuests failOrders failSum : Bool) : Except String Stats :=
  if failGuests then .error "Database error"
  else
    let totalGuests := s.guests.length
    if failOrders then .error "Database error"
    else
      let totalOrders := s.orders.length
      if failSum then .error "Database error"
      else
        .ok { totalGuests := totalGuests
              totalOrders := totalOrders
              totalPhotosOrdered := jsOrZero (sqlSumPhotoCount s.orders) }

/-! ### CSV export -/

/-- Header line of `GET /api/export/guests`. -/
def guestCsvHeader : String :=
  "ID,Name,Email,Gallery Name,Gallery ID,Visit Date,Created At"

/-- Header line of `GET /api/export/orders`. -/
def orderCsvHeader : String :=
  "ID,Name,Email,Gallery Name,Gallery ID,Photo Count,Submitted At,Created At"

/-- One data line of the guests CSV, the template literal of the handler:
the numeric `id` unquoted, every other field wrapped in double quotes
with its value inserted verbatim. -/
def renderGuestRow (r : GuestRow) : String :=
  toString r.id ++ ",\"" ++ r.name ++ "\",\"" ++ r.email ++ "\",\"" ++
    r.gallery_name ++ "\",\"" ++ r.gallery_id ++ "\",\"" ++ r.visit_date ++
    "\",\"" ++ toString r.created_at ++ "\""

/-- One data line of the orders CSV: `id` and `photo_count` unquoted,
every other field wrapped in double quotes, values inserted verbatim. -/
def renderOrderRow (r : OrderRow) : String :=
  toString r.id ++ ",\"" ++ r.name ++ "\",\"" ++ r.email ++ "\",\"" ++
    r.gallery_name ++ "\",\"" ++ r.gallery_id ++ "\"," ++
    toString r.photo_count ++ ",\"" ++ r.submitted_at ++ "\",\"" ++
    toString r.created_at ++ "\""

/-- Models `Array.prototype.join("\n")`. -/
def joinNewline : List String → String
  | [] => ""
  | [x] => x
  | x :: xs => x ++ "\n" ++ joinNewline xs

/-- Handler of `GET /api/export/guests`: header line followed by one
line per row, rows newest first, joined with newlines. -/
def exportGuestsCsv (s : DB) : String :=
  joinNewline (guestCsvHeader :: (sortGuestsDesc s.guests).map renderGuestRow)

/-- Handler of `GET /api/export/orders`. -/
def exportOrdersCsv (s : DB) : String :=
  joinNewline (orderCsvHeader :: (sortOrdersDesc s.orders).map renderOrderRow)

/-! ### Traces and reachability -/

/-- One mutating request, with the data the server samples at request
time (the ISO timestamp used for defaulted fields). -/
inductive Req where
  | postGuest (nowIso : String) (b : GuestBody)
  | postOrder (nowIso : String) (b : OrderBody)
  | deleteGuest (id : Nat)
  | deleteOrder (id : Nat)
  | clearGuests
  | clearOrders
deriving DecidableEq, Repr

/-- Dispatch of one mutating request to its handler. -/
def applyReq (s : DB) : Req → DB × Resp
  | .postGuest nowIso b => createGuest s nowIso b
  | .postOrder nowIso b => createOrder s nowIso b
  | .deleteGuest id => let r := deleteGuestById s id; (r.1, r.2.1)
  | .deleteOrder id => let r := deleteOrderById s id; (r.1, r.2.1)
  | .clearGuests => deleteAllGuests s
  | .clearOrders => deleteAllOrders s

/-- Database states reachable from a fresh database within one process
lifetime. -/
inductive Reachable : DB → Prop
  | init : Reachable initDB
  | step (s : DB) (r : Req) : Reachable s → Reachable (applyReq s r).1

/-- Ids returned by the successful guest-create operations of a request
trace, in submission order. -/
def guestCreatedIds (s : DB) : List Req → List Nat
  | [] => []
  | r :: rs =>
    match r, applyReq s r with
    | .postGuest _ _, (s2, .created id) => id :: guestCreatedIds s2 rs
    | _, (s2, _) => guestCreatedIds s2 rs

/-- Invariants of reachable database states: stored ids are below the
`AUTOINCREMENT` counters, and every stored `photos` column is the
serialization of the submitted list, whose length is the stored
`photo_count`. -/
structure DBInv (s : DB) : Prop where
  guestIdLt : ∀ g ∈ s.guests, g.id < s.nextGuestId
  orderIdLt : ∀ o ∈ s.orders, o.id < s.nextOrderId
  photosWf : ∀ o ∈ s.orders, ∃ l, o.photos = stringifyPhotos l ∧ o.photo_count = l.length

theorem hexVal_hexDigitChar : ∀ n, n < 16 → hexVal (hexDigitChar n) = some n := by decide

theorem parseStringBody_cons_plain (c : Char) (h1 : c ≠ '"') (h2 : c ≠ '\\') (l : List Char) :
    parseStringBody (c :: l) = (parseStringBody l).map fun p => (c :: p.1, p.2) := by
  rw [parseStringBody.eq_def]
  split
  · simp_all
  · simp_all
  · simp_all
  · simp_all
  · rename_i x c2 rest2 n1 n2 n3 heq
    injection heq with hc hl
    subst hc
    subst hl
    rfl

theorem parseStringBody_escape (cs rest : List Char) :
    parseStringBody (escapeString cs ++ '"' :: rest) = some (cs, rest) := by
  induction cs with
  | nil => simp [escapeString, parseStringBody]
  | cons c cs ih =>
    have hesc : escapeString (c :: cs) = escapeChar c ++ escapeString cs := by
      simp [escapeString]
    rw [hesc, List.append_assoc]
    by_cases hq : c = '"'
    · subst hq
      simp [escapeChar, parseStringBody, unescapeSimple, ih]
    by_cases hb : c = '\\'
    · subst hb
      simp [escapeChar, parseStringBody, unescapeSimple, ih]
    by_cases h08 : c = '\x08'
    · subst h08
      simp [escapeChar, parseStringBody, unescapeSimple, ih]
    by_cases h0c : c = '\x0c'
    · subst h0c
      simp [escapeChar, parseStringBody, unescapeSimple, ih]
    by_cases hn : c = '\n'
    · subst hn
      simp [escapeChar, parseStringBody, unescapeSimple, ih]
    by_cases hr : c = '\r'
    · subst hr
      simp [escapeChar, parseStringBody, unescapeSimple, ih]
    by_cases ht : c = '\t'
    · subst ht
      simp [escapeChar, parseStringBody, unescapeSimple, ih]
    by_cases hctl : c.toNat < 32
    · have hesc2 : escapeChar c =
        ['\\', 'u', '0', '0', hexDigitChar (c.toNat / 16), hexDigitChar (c.toNat % 16)] := by
        simp [escapeChar, hq, hb, h08, h0c, hn, hr, ht, hctl]
      rw [hesc2]
      have hdiv : c.toNat / 16 < 16 := by omega
      have hmod : c.toNat % 16 < 16 := by omega
      simp only [List.cons_append, parseStringBody, hexVal_hexDigitChar _ hdiv,
        hexVal_hexDigitChar _ hmod]
      have h0 : hexVal '0' = some 0 := by decide
      rw [h0]
      dsimp only
      have hval : ((0 * 16 + 0) * 16 + c.toNat / 16) * 16 + c.toNat % 16 = c.toNat := by omega
      rw [hval]
      have hvc : c.toNat.isValidChar := by
        unfold Nat.isValidChar
        omega
      simp [hvc, ih, Char.ofNat_toNat]
    · have hesc2 : escapeChar c = [c] := by
        simp [escapeChar, hq, hb, h08, h0c, hn, hr, ht, hctl]
      rw [hesc2]
      simp [parseStringBody_cons_plain c hq hb, ih]

theorem parseItems_joinComma :
    ∀ (l : List String) (f : Nat), l ≠ [] → l.length ≤ f + 1 →
    parseItems (f + 1) (joinComma (l.map fun s => quoteChars s.data) ++ [']']) =
      some (l.map String.data) := by
  intro l
  induction l with
  | nil => intro f h; exact absurd rfl h
  | cons s tl ih =>
    intro f _ hlen
    cases tl with
    | nil =>
      simp only [List.map, joinComma, quoteChars, List.cons_append, List.append_eq,
        List.append_assoc, List.singleton_append, parseItems]
      rw [parseStringBody_escape]
      simp
    | cons s2 tl2 =>
      have hjoin : joinComma ((s :: s2 :: tl2).map fun s => quoteChars s.data) =
          quoteChars s.data ++ ',' :: joinComma ((s2 :: tl2).map fun s => quoteChars s.data) := by
        simp [joinComma]
      rw [hjoin]
      simp only [quoteChars, List.cons_append, List.append_eq, List.append_assoc,
        List.singleton_append, parseItems]
      rw [parseStringBody_escape]
      have hlen2 : (s2 :: tl2).length ≤ f := by
        simp only [List.length] at hlen ⊢
        omega
      cases f with
      | zero => simp at hlen2
      | succ f2 =>
        have hrec := ih f2 (by simp) (by omega)
        simp only [List.map, quoteChars] at hrec ⊢
        simp only [List.nil_append]
        rw [hrec]
        simp

theorem length_le_joinComma_quote (l : List String) :
    l.length ≤ (joinComma (l.map fun s => quoteChars s.data)).length := by
  induction l with
  | nil => simp [joinComma]
  | cons s tl ih =>
    cases tl with
    | nil => simp [joinComma, quoteChars]
    | cons s2 tl2 =>
      have hjoin : joinComma ((s :: s2 :: tl2).map fun s => quoteChars s.data) =
          quoteChars s.data ++ ',' :: joinComma ((s2 :: tl2).map fun s => quoteChars s.data) := by
        simp [joinComma]
      rw [hjoin]
      simp only [List.append_eq, List.length_append, List.length_cons, List.length,
        quoteChars] at ih ⊢
      omega

theorem asString_data (s : String) : s.data.asString = s := by
  cases s
  rfl

theorem parsePhotos_stringifyPhotos (l : List String) :
    parsePhotos (stringifyPhotos l) = some l := by
  cases l with
  | nil => rfl
  | cons s tl =>
    have hhead : ∃ t, joinComma ((s :: tl).map fun s => quoteChars s.data) = '"' :: t := by
      cases tl with
      | nil => exact ⟨escapeString s.data ++ ['"'], by simp [joinComma, quoteChars]⟩
      | cons s2 tl2 =>
        refine ⟨escapeString s.data ++ ['"'] ++
          ',' :: joinComma ((s2 :: tl2).map fun s => quoteChars s.data), ?_⟩
        simp [joinComma, quoteChars]
    obtain ⟨t, ht⟩ := hhead
    have hlen : (s :: tl).length ≤ t.length + 2 := by
      have := length_le_joinComma_quote (s :: tl)
      rw [ht] at this
      simp only [List.length_cons] at this ⊢
      omega
    unfold stringifyPhotos parsePhotos
    simp only [ht, List.cons_append, List.length_cons, List.length_append, List.length]
    have harm : (match ('[' :: ('"' :: (t ++ [']'])) : List Char) with
        | '[' :: ']' :: [] => some []
        | '[' :: rest => (parseItems rest.length rest).map fun xs => xs.map List.asString
        | _ => none) =
        (parseItems ('"' :: (t ++ [']'])).length ('"' :: (t ++ [']']))).map
          (fun xs => xs.map List.asString) := rfl
    rw [harm]
    have hfeq : ('"' :: (t ++ [']'])).length = (t.length + 1) + 1 := by simp
    rw [hfeq]
    have hjoin2 : ('"' :: (t ++ [']'])) =
        joinComma ((s :: tl).map fun s => quoteChars s.data) ++ [']'] := by
      rw [ht]
      simp
    rw [hjoin2, parseItems_joinComma (s :: tl) (t.length + 1) (by simp) (by omega)]
    simp [Function.comp_def, asString_data]

/-! ### Read-path helper lemmas -/

theorem parseRow_eq_parseRowD (r : OrderRow) (h : (parsePhotos r.photos).isSome) :
    parseRow r = some (parseRowD r) := by
  unfold parseRow parseRowD
  obtain ⟨ps, hps⟩ := Option.isSome_iff_exists.mp h
  rw [hps]
  rfl

theorem parseAll_eq_map (l : List OrderRow) (h : ∀ r ∈ l, (parsePhotos r.photos).isSome) :
    parseAll l = some (l.map parseRowD) := by
  induction l with
  | nil => rfl
  | cons r rs ih =>
    have hr : (parsePhotos r.photos).isSome := h r (List.mem_cons_self r rs)
    have hrs := ih fun x hx => h x (List.mem_cons_of_mem r hx)
    unfold parseAll
    rw [parseRow_eq_parseRowD r hr, hrs]
    rfl

theorem wf_photos_isSome (r : OrderRow)
    (h : ∃ l, r.photos = stringifyPhotos l ∧ r.photo_count = l.length) :
    (parsePhotos r.photos).isSome := by
  obtain ⟨l, hl, _⟩ := h
  rw [hl, parsePhotos_stringifyPhotos]
  rfl

theorem parseRowD_photos (r : OrderRow) (l : List String) (h : r.photos = stringifyPhotos l) :
    (parseRowD r).photos = l := by
  unfold parseRowD
  rw [h, parsePhotos_stringifyPhotos]
  rfl

/-! ### Invariant preservation -/

theorem dbInv_init : DBInv initDB := by
  refine ⟨?_, ?_, ?_⟩ <;> intro x hx <;> simp [initDB] at hx

theorem dbInv_createGuest (s : DB) (nowIso : String) (b : GuestBody) (h : DBInv s) :
    DBInv (createGuest s nowIso b).1 := by
  obtain ⟨hg, ho, hw⟩ := h
  unfold createGuest
  split
  · exact ⟨hg, ho, hw⟩
  · refine ⟨?_, ?_, ?_⟩
    · intro g hgMem
      dsimp only at hgMem ⊢
      simp only [List.mem_append, List.mem_singleton] at hgMem
      rcases hgMem with hm | hm
      · exact Nat.lt_succ_of_lt (hg g hm)
      · subst hm
        exact Nat.lt_succ_self _
    · intro o hoMem
      exact ho o hoMem
    · intro o hoMem
      exact hw o hoMem

theorem dbInv_createOrder (s : DB) (nowIso : String) (b : OrderBody) (h : DBInv s) :
    DBInv (createOrder s nowIso b).1 := by
  obtain ⟨hg, ho, hw⟩ := h
  unfold createOrder
  cases b.photos with
  | none => exact ⟨hg, ho, hw⟩
  | some ps =>
    dsimp only
    split
    · exact ⟨hg, ho, hw⟩
    · refine ⟨?_, ?_, ?_⟩
      · intro g hgMem
        exact hg g hgMem
      · intro o hoMem
        dsimp only at hoMem ⊢
        simp only [List.mem_append, List.mem_singleton] at hoMem
        rcases hoMem with hm | hm
        · exact Nat.lt_succ_of_lt (ho o hm)
        · subst hm
          exact Nat.lt_succ_self _
      · intro o hoMem
        dsimp only at hoMem
        simp only [List.mem_append, List.mem_singleton] at hoMem
        rcases hoMem with hm | hm
        · exact hw o hm
        · subst hm
          exact ⟨ps, rfl, rfl⟩

theorem dbInv_deleteGuestById (s : DB) (id : Nat) (h : DBInv s) :
    DBInv (deleteGuestById s id).1 := by
  obtain ⟨hg, ho, hw⟩ := h
  exact ⟨fun g hm => hg g (List.mem_of_mem_filter hm), ho, hw⟩

theorem dbInv_deleteOrderById (s : DB) (id : Nat) (h : DBInv s) :
    DBInv (deleteOrderById s id).1 := by
  obtain ⟨hg, ho, hw⟩ := h
  exact ⟨hg, fun o hm => ho o (List.mem_of_mem_filter hm),
    fun o hm => hw o (List.mem_of_mem_filter hm)⟩

theorem dbInv_deleteAllGuests (s : DB) (h : DBInv s) : DBInv (deleteAllGuests s).1 := by
  obtain ⟨_, ho, hw⟩ := h
  exact ⟨fun g hm => absurd hm (List.not_mem_nil g), ho, hw⟩

theorem dbInv_deleteAllOrders (s : DB) (h : DBInv s) : DBInv (deleteAllOrders s).1 := by
  obtain ⟨hg, _, _⟩ := h
  exact ⟨hg, fun o hm => absurd hm (List.not_mem_nil o),
    fun o hm => absurd hm (List.not_mem_nil o)⟩

theorem dbInv_applyReq (s : DB) (r : Req) (h : DBInv s) : DBInv (applyReq s r).1 := by
  cases r with
  | postGuest nowIso b => exact dbInv_createGuest s nowIso b h
  | postOrder nowIso b => exact dbInv_createOrder s nowIso b h
  | deleteGuest id => exact dbInv_deleteGuestById s id h
  | deleteOrder id => exact dbInv_deleteOrderById s id h
  | clearGuests => exact dbInv_deleteAllGuests s h
  | clearOrders => exact dbInv_deleteAllOrders s h

theorem reachable_dbInv (s : DB) (h : Reachable s) : DBInv s := by
  induction h with
  | init => exact dbInv_init
  | step s r _ ih => exact dbInv_applyReq s r ih

/-! ### Claims -/

/-- C6: deleteAll removes every guest (resp. every order) and returns the
number of rows removed in the `deleted` field; on an empty table it
returns `deleted = 0` and leaves the table empty (and each bulk delete
leaves the other table untouched). -/
theorem c6_deleteAll_counts (s : DB) :
    (deleteAllGuests s).1.guests = [] ∧
    (deleteAllGuests s).2 = Resp.cleared s.guests.length ∧
    (deleteAllGuests s).1.orders = s.orders ∧
    (deleteAllOrders s).1.orders = [] ∧
    (deleteAllOrders s).2 = Resp.cleared s.orders.length ∧
    (deleteAllOrders s).1.guests = s.guests ∧
    (deleteAllGuests { s with guests := [] }).2 = Resp.cleared 0 ∧
    (deleteAllOrders { s with orders := [] }).2 = Resp.cleared 0 := by
  exact ⟨rfl, rfl, rfl, rfl, rfl, rfl, rfl, rfl⟩

/-- C7: delete-by-id of an id that identifies no existing guest (resp.
order) succeeds with zero rows affected and leaves the store completely
unchanged. -/
theorem c7_deleteOne_missing_id (s : DB) (gid oid : Nat)
    (hg : ∀ g ∈ s.guests, g.id ≠ gid) (ho : ∀ o ∈ s.orders, o.id ≠ oid) :
    deleteGuestById s gid = (s, Resp.deletedOne, 0) ∧
    deleteOrderById s oid = (s, Resp.deletedOne, 0) := by
  have hgf : s.guests.filter (fun g => g.id ≠ gid) = s.guests :=
    List.filter_eq_self.mpr fun g hm => by simpa using hg g hm
  have hof : s.orders.filter (fun o => o.id ≠ oid) = s.orders :=
    List.filter_eq_self.mpr fun o hm => by simpa using ho o hm
  unfold deleteGuestById deleteOrderById
  rw [hgf, hof]
  simp

/-- C7 witness: on the fresh database no id exists, and deleting id 1
from either table is a no-op success with zero rows affected. -/
theorem c7_witness :
    deleteGuestById initDB 1 = (initDB, Resp.deletedOne, 0) ∧
    deleteOrderById initDB 1 = (initDB, Resp.deletedOne, 0) :=
  c7_deleteOne_missing_id initDB 1 1
    (by intro g hm; simp [initDB] at hm)
    (by intro o hm; simp [initDB] at hm)

/-- Auxiliary: the JS coalescing `n || 0` of a present SUM result is the
identity. -/
theorem jsOrZero_some (n : Nat) : jsOrZero (some n) = n := by
  by_cases h : n = 0 <;> simp [jsOrZero, h]

/-- Auxiliary: on a cons the SUM aggregate is the plain sum. -/
theorem jsOrZero_sqlSum (l : List OrderRow) :
    jsOrZero (sqlSumPhotoCount l) = (l.map fun o => o.photo_count).sum := by
  cases l with
  | nil => rfl
  | cons r rs =>
    have h : sqlSumPhotoCount (r :: rs) =
        some (((r :: rs).map fun o => o.photo_count).sum) := rfl
    rw [h, jsOrZero_some]

/-- C5: getStats returns exactly the three aggregates (guest count,
order count, sum of photo_count), the photo sum degrades to 0 (not
null) when no orders exist, and a failure of any one of the three
aggregate queries fails the whole operation with a storage error. -/
theorem c5_getStats (s : DB) (f1 f2 f3 : Bool) :
    getStats s false false false =
      Except.ok ⟨s.guests.length, s.orders.length, (s.orders.map fun o => o.photo_count).sum⟩ ∧
    (s.orders = [] →
      getStats s false false false = Except.ok ⟨s.guests.length, 0, 0⟩) ∧
    ((f1 || f2 || f3) = true → getStats s f1 f2 f3 = Except.error "Database error") := by
  refine ⟨?_, ?_, ?_⟩
  · unfold getStats
    simp [jsOrZero_sqlSum]
  · intro hempty
    unfold getStats
    simp [hempty, jsOrZero_sqlSum]
  · intro hf
    unfold getStats
    cases f1 <;> cases f2 <;> cases f3 <;> simp_all

/-- C5 witness: on the fresh database the stats are all zero, and an
injected failure of the first aggregate yields the storage error. -/
theorem c5_witness :
    getStats initDB false false false = Except.ok ⟨0, 0, 0⟩ ∧
    getStats initDB true false false = Except.error "Database error" :=
  ⟨(c5_getStats initDB false false false).2.1 rfl,
   (c5_getStats initDB true false false).2.2 rfl⟩

/-- C10: when `visitDate` (resp. `submittedAt`) is present but falsy —
the empty string — the stored `visit_date` (resp. `submitted_at`) is the
current server timestamp, exactly as when the field is absent. -/
theorem c10_falsy_defaults (s : DB) (nowIso : String) (gb : GuestBody) (ob : OrderBody)
    (hg1 : truthy gb.name = true) (hg2 : truthy gb.email = true)
    (hg3 : truthy gb.galleryName = true) (hg4 : truthy gb.galleryId = true)
    (hgv : gb.visitDate = some "")
    (ho1 : truthy ob.name = true) (ho2 : truthy ob.email = true)
    (ho3 : truthy ob.galleryName = true) (ho4 : truthy ob.galleryId = true)
    (hop : ob.photos.isSome = true) (hos : ob.submittedAt = some "") :
    (∃ row, (createGuest s nowIso gb).1.guests = s.guests ++ [row] ∧
      row.visit_date = nowIso) ∧
    (∃ row, (createOrder s nowIso ob).1.orders = s.orders ++ [row] ∧
      row.submitted_at = nowIso) := by
  constructor
  · unfold createGuest
    simp only [hg1, hg2, hg3, hg4, Bool.not_true, Bool.or_self, Bool.false_or, if_neg,
      Bool.false_eq_true, not_false_eq_true]
    exact ⟨_, rfl, by rw [hgv]; rfl⟩
  · unfold createOrder
    obtain ⟨ps, hps⟩ := Option.isSome_iff_exists.mp hop
    rw [hps]
    simp only [ho1, ho2, ho3, ho4, Bool.not_true, Bool.or_self, Bool.false_or, if_neg,
      Bool.false_eq_true, not_false_eq_true]
    exact ⟨_, rfl, by rw [hos]; rfl⟩

/-- C10 witness: concrete create requests carrying empty-string
`visitDate` and `submittedAt` store the server timestamp `"T0"`. -/
theorem c10_witness :
    (∃ row, (createGuest initDB "T0"
        ⟨some "Ann", some "a@x.com", some "Spring", some "g1", some ""⟩).1.guests =
        initDB.guests ++ [row] ∧ row.visit_date = "T0") ∧
    (∃ row, (createOrder initDB "T0"
        ⟨some "Ann", some "a@x.com", some "Spring", some "g1", some ["p1"], some ""⟩).1.orders =
        initDB.orders ++ [row] ∧ row.submitted_at = "T0") :=
  c10_falsy_defaults initDB "T0"
    ⟨some "Ann", some "a@x.com", some "Spring", some "g1", some ""⟩
    ⟨some "Ann", some "a@x.com", some "Spring", some "g1", some ["p1"], some ""⟩
    rfl rfl rfl rfl rfl rfl rfl rfl rfl rfl rfl

/-- C2 counterexample: an order create request whose required `photos`
field is present but empty (`photos = []`, with all other required
fields valid) is not rejected: it returns a success response and grows
the orders table by one row, refuting the claim that every create
request with a missing-or-empty required field yields HTTP 400 and
persists nothing. -/
theorem c2_counterexample :
    (createOrder initDB "T0"
        ⟨some "Ann", some "a@x.com", some "Spring", some "g1", some [], none⟩).2 =
      Resp.created 1 ∧
    (createOrder initDB "T0"
        ⟨some "Ann", some "a@x.com", some "Spring", some "g1", some [], none⟩).1.orders.length
      = 1 := by
  exact ⟨rfl, rfl⟩

/-- C2 (amended): a guest create request with any required string field
missing or empty, and an order create request with any required string
field missing or empty or with the `photos` field missing, returns HTTP
400 with the error body and leaves the store unchanged (so both row
counts are unchanged); a present-but-empty `photos` list, however, is
not rejected. -/
theorem c2_amended_validation (s : DB) (nowIso : String) (gb : GuestBody) (ob : OrderBody)
    (hg : truthy gb.name = false ∨ truthy gb.email = false ∨
      truthy gb.galleryName = false ∨ truthy gb.galleryId = false)
    (ho : truthy ob.name = false ∨ truthy ob.email = false ∨
      truthy ob.galleryName = false ∨ truthy ob.galleryId = false ∨ ob.photos = none) :
    createGuest s nowIso gb = (s, Resp.badRequest "Missing required fields") ∧
    createOrder s nowIso ob = (s, Resp.badRequest "Missing required fields") := by
  constructor
  · unfold createGuest
    rcases hg with h | h | h | h <;> simp [h]
  · unfold createOrder
    rcases ho with h | h | h | h | h
    · cases hps : ob.photos with
      | none => rfl
      | some ps => simp [h]
    · cases hps : ob.photos with
      | none => rfl
      | some ps => simp [h]
    · cases hps : ob.photos with
      | none => rfl
      | some ps => simp [h]
    · cases hps : ob.photos with
      | none => rfl
      | some ps => simp [h]
    · rw [h]

/-- C2 witness: a guest request missing `email` and an order request
missing `photos` are both rejected with HTTP 400 against the fresh
database, which stays unchanged. -/
theorem c2_amended_witness :
    createGuest initDB "T0" ⟨some "Ann", none, some "Spring", some "g1", none⟩ =
      (initDB, Resp.badRequest "Missing required fields") ∧
    createOrder initDB "T0" ⟨some "Ann", some "a@x.com", some "Spring", some "g1", none, none⟩ =
      (initDB, Resp.badRequest "Missing required fields") :=
  c2_amended_validation initDB "T0"
    ⟨some "Ann", none, some "Spring", some "g1", none⟩
    ⟨some "Ann", some "a@x.com", some "Spring", some "g1", none, none⟩
    (Or.inr (Or.inl rfl)) (Or.inr (Or.inr (Or.inr (Or.inr rfl))))

/-- C3 counterexample: the state reached from the fresh database by one
order create request carrying `photos = []` is reachable and contains an
order whose stored photos sequence has length zero, refuting the claim
that every existing order has a non-empty photos sequence. -/
theorem c3_counterexample :
    Reachable (applyReq initDB
      (Req.postOrder "T0" ⟨some "Ann", some "a@x.com", some "Spring", some "g1", some [], none⟩)).1 ∧
    ∃ row ∈ (applyReq initDB
      (Req.postOrder "T0" ⟨some "Ann", some "a@x.com", some "Spring", some "g1", some [], none⟩)).1.orders,
      row.photo_count = 0 ∧ parsePhotos row.photos = some [] := by
  constructor
  · exact Reachable.step initDB _ Reachable.init
  · decide

/-- C3 (amended): in every reachable store state every existing order
has a well-formed photos column — the serialization of the submitted
list, with `photo_count` equal to its length — and order creation
rejects an absent `photos` field with HTTP 400; but the submitted list
itself may be empty, so an order whose photos sequence has length zero
can exist. -/
theorem c3_amended_photos_present (s : DB) (hs : Reachable s) :
    (∀ o ∈ s.orders, ∃ l, o.photos = stringifyPhotos l ∧ o.photo_count = l.length) ∧
    (∀ nowIso (b : OrderBody), b.photos = none →
      createOrder s nowIso b = (s, Resp.badRequest "Missing required fields")) := by
  constructor
  · exact (reachable_dbInv s hs).photosWf
  · intro nowIso b hb
    unfold createOrder
    rw [hb]

/-- C3 witness: the amended invariant holds at the reachable one-order
state of the counterexample, and an order request without `photos` is
rejected there. -/
theorem c3_amended_witness :
    (∀ o ∈ (applyReq initDB
        (Req.postOrder "T0" ⟨some "Ann", some "a@x.com", some "Spring", some "g1", some [], none⟩)).1.orders,
      ∃ l, o.photos = stringifyPhotos l ∧ o.photo_count = l.length) ∧
    (∀ nowIso (b : OrderBody), b.photos = none →
      createOrder (applyReq initDB
        (Req.postOrder "T0" ⟨some "Ann", some "a@x.com", some "Spring", some "g1", some [], none⟩)).1
        nowIso b =
        ((applyReq initDB
          (Req.postOrder "T0" ⟨some "Ann", some "a@x.com", some "Spring", some "g1", some [], none⟩)).1,
         Resp.badRequest "Missing required fields")) :=
  c3_amended_photos_present _ (Reachable.step initDB _ Reachable.init)

/-- Auxiliary: membership in the descending sort is membership in the
underlying row list. -/
theorem mem_sortOrdersDesc (l : List OrderRow) (r : OrderRow) :
    r ∈ sortOrdersDesc l ↔ r ∈ l := by
  unfold sortOrdersDesc
  exact List.mem_insertionSort createdGeO

/-- Auxiliary: a row surviving the gallery filter has the requested
gallery id. -/
theorem filter_gid_eq {l : List OrderRow} {gid : String} {r : OrderRow}
    (h : r ∈ l.filter fun o => o.gallery_id == gid) : r.gallery_id = gid := by
  have hm := List.mem_filter.mp h
  simpa using hm.2

/-- C4: listByGallery returns (without error) exactly the orders whose
gallery_id is an exact match, sorted by descending created_at, and the
empty collection when nothing matches. -/
theorem c4_listByGallery (s : DB) (hs : Reachable s) (gid : String) :
    ∃ outs, listByGallery s gid = some outs ∧
      (∀ o ∈ outs, o.gallery_id = gid) ∧
      (∀ o : OrderOut, o ∈ outs ↔
        ∃ row ∈ s.orders, row.gallery_id = gid ∧ parseRow row = some o) ∧
      outs.Pairwise (fun a b => b.created_at ≤ a.created_at) ∧
      ((∀ row ∈ s.orders, row.gallery_id ≠ gid) → outs = []) := by
  have hinv := (reachable_dbInv s hs).photosWf
  have hwfF : ∀ r ∈ sortOrdersDesc (s.orders.filter fun o => o.gallery_id == gid),
      (parsePhotos r.photos).isSome := by
    intro r hr
    have hrF := (mem_sortOrdersDesc _ r).mp hr
    exact wf_photos_isSome r (hinv r (List.mem_of_mem_filter hrF))
  have hparse := parseAll_eq_map _ hwfF
  refine ⟨_, hparse, ?_, ?_, ?_, ?_⟩
  · intro o ho
    obtain ⟨r, hr, rfl⟩ := List.mem_map.mp ho
    have hrF := (mem_sortOrdersDesc _ r).mp hr
    exact filter_gid_eq hrF
  · intro o
    constructor
    · intro ho
      obtain ⟨r, hr, rfl⟩ := List.mem_map.mp ho
      have hrF := (mem_sortOrdersDesc _ r).mp hr
      refine ⟨r, List.mem_of_mem_filter hrF, filter_gid_eq hrF, ?_⟩
      exact parseRow_eq_parseRowD r (wf_photos_isSome r (hinv r (List.mem_of_mem_filter hrF)))
    · intro ⟨row, hrow, hgidEq, hpr⟩
      have hrowF : row ∈ s.orders.filter fun o => o.gallery_id == gid :=
        List.mem_filter.mpr ⟨hrow, by simp [hgidEq]⟩
      have hrowS := (mem_sortOrdersDesc _ row).mpr hrowF
      have hsome := parseRow_eq_parseRowD row (wf_photos_isSome row (hinv row hrow))
      rw [hsome] at hpr
      obtain rfl := Option.some_injective _ hpr
      exact List.mem_map.mpr ⟨row, hrowS, rfl⟩
  · have hsorted : (sortOrdersDesc (s.orders.filter fun o => o.gallery_id == gid)).Pairwise
        createdGeO := List.sorted_insertionSort createdGeO _
    exact hsorted.map parseRowD fun a b hab => hab
  · intro hnone
    have hF : (s.orders.filter fun o => o.gallery_id == gid) = [] := by
      rw [List.filter_eq_nil_iff]
      intro row hrow
      simp [hnone row hrow]
    rw [hF]
    rfl

/-- C4 witness: against the reachable one-order state, listByGallery of
the stored gallery id returns exactly that order, descending, and the
characterization holds. -/
theorem c4_witness :
    ∃ outs, listByGallery (applyReq initDB
      (Req.postOrder "T0" ⟨some "Ann", some "a@x.com", some "Spring", some "g1", some ["p1"], none⟩)).1
      "g1" = some outs ∧
      (∀ o ∈ outs, o.gallery_id = "g1") ∧
      (∀ o : OrderOut, o ∈ outs ↔
        ∃ row ∈ (applyReq initDB
          (Req.postOrder "T0" ⟨some "Ann", some "a@x.com", some "Spring", some "g1", some ["p1"], none⟩)).1.orders,
          row.gallery_id = "g1" ∧ parseRow row = some o) ∧
      outs.Pairwise (fun a b => b.created_at ≤ a.created_at) ∧
      ((∀ row ∈ (applyReq initDB
          (Req.postOrder "T0" ⟨some "Ann", some "a@x.com", some "Spring", some "g1", some ["p1"], none⟩)).1.orders,
        row.gallery_id ≠ "g1") → outs = []) :=
  c4_listByGallery _ (Reachable.step initDB _ Reachable.init) "g1"

/-- The row inserted by a successful order create, as a named record
(identical to the one built inline by `createOrder`). -/
def mkOrderRow (s : DB) (nowIso : String) (b : OrderBody) (ps : List String) : OrderRow :=
  { id := s.nextOrderId
    name := b.name.getD ""
    email := b.email.getD ""
    gallery_name := b.galleryName.getD ""
    gallery_id := b.galleryId.getD ""
    photo_count := ps.length
    photos := stringifyPhotos ps
    submitted_at := jsOrDefault b.submittedAt nowIso
    created_at := s.clock }

/-- C1: a successful order create with photos list `ps` stores
`photo_count = ps.length`, and reading the order back by its returned id
through listAllOrders (and listByGallery) yields a photos field equal to
`ps` — the serialize-then-deserialize round trip is the identity. -/
theorem c1_order_roundtrip (s : DB) (hs : Reachable s) (nowIso : String) (b : OrderBody)
    (ps : List String) (hps : b.photos = some ps)
    (h1 : truthy b.name = true) (h2 : truthy b.email = true)
    (h3 : truthy b.galleryName = true) (h4 : truthy b.galleryId = true) :
    ∃ s2 id, createOrder s nowIso b = (s2, Resp.created id) ∧
      (∃ row ∈ s2.orders, row.id = id ∧ row.photo_count = ps.length ∧
        row.photos = stringifyPhotos ps) ∧
      (∃ outs, listAllOrders s2 = some outs ∧
        (∃ o ∈ outs, o.id = id ∧ o.photos = ps ∧ o.photo_count = ps.length) ∧
        (∀ o ∈ outs, o.id = id → o.photos = ps ∧ o.photo_count = ps.length)) ∧
      (∃ outs, listByGallery s2 (b.galleryId.getD "") = some outs ∧
        ∃ o ∈ outs, o.id = id ∧ o.photos = ps) := by
  have hinv := reachable_dbInv s hs
  have hco : createOrder s nowIso b =
      ({ s with orders := s.orders ++ [mkOrderRow s nowIso b ps],
                nextOrderId := s.nextOrderId + 1,
                clock := s.clock + 1 }, Resp.created s.nextOrderId) := by
    unfold createOrder mkOrderRow
    rw [hps]
    simp only [h1, h2, h3, h4, Bool.not_true, Bool.or_self, Bool.false_or,
      Bool.false_eq_true, not_false_eq_true, if_neg]
  have hrowMemBase : mkOrderRow s nowIso b ps ∈ s.orders ++ [mkOrderRow s nowIso b ps] :=
    List.mem_append.mpr (Or.inr (List.mem_singleton.mpr rfl))
  have hwfAll : ∀ r ∈ s.orders ++ [mkOrderRow s nowIso b ps],
      (parsePhotos r.photos).isSome := by
    intro r hr
    rcases List.mem_append.mp hr with hm | hm
    · exact wf_photos_isSome r (hinv.photosWf r hm)
    · rw [List.mem_singleton] at hm
      subst hm
      show (parsePhotos (stringifyPhotos ps)).isSome = true
      rw [parsePhotos_stringifyPhotos]
      rfl
  refine ⟨_, s.nextOrderId, hco,
    ⟨mkOrderRow s nowIso b ps, hrowMemBase, rfl, rfl, rfl⟩, ?_, ?_⟩
  · have hwfS : ∀ r ∈ sortOrdersDesc (s.orders ++ [mkOrderRow s nowIso b ps]),
        (parsePhotos r.photos).isSome :=
      fun r hr => hwfAll r ((mem_sortOrdersDesc _ r).mp hr)
    have hparse := parseAll_eq_map _ hwfS
    have hrowS : mkOrderRow s nowIso b ps ∈
        sortOrdersDesc (s.orders ++ [mkOrderRow s nowIso b ps]) :=
      (mem_sortOrdersDesc _ _).mpr hrowMemBase
    refine ⟨_, hparse, ?_, ?_⟩
    · exact ⟨parseRowD (mkOrderRow s nowIso b ps), List.mem_map.mpr ⟨_, hrowS, rfl⟩,
        rfl, parseRowD_photos _ ps rfl, rfl⟩
    · intro o ho hid
      obtain ⟨r, hr, rfl⟩ := List.mem_map.mp ho
      rcases List.mem_append.mp ((mem_sortOrdersDesc _ r).mp hr) with hm | hm
      · exact absurd (hid : r.id = s.nextOrderId) (Nat.ne_of_lt (hinv.orderIdLt r hm))
      · rw [List.mem_singleton] at hm
        subst hm
        exact ⟨parseRowD_photos _ ps rfl, rfl⟩
  · have hrowF : mkOrderRow s nowIso b ps ∈
        (s.orders ++ [mkOrderRow s nowIso b ps]).filter
          (fun o => o.gallery_id == b.galleryId.getD "") :=
      List.mem_filter.mpr ⟨hrowMemBase, by simp [mkOrderRow]⟩
    have hwfF : ∀ r ∈ sortOrdersDesc ((s.orders ++ [mkOrderRow s nowIso b ps]).filter
        (fun o => o.gallery_id == b.galleryId.getD "")), (parsePhotos r.photos).isSome :=
      fun r hr => hwfAll r (List.mem_of_mem_filter ((mem_sortOrdersDesc _ r).mp hr))
    have hparseF := parseAll_eq_map _ hwfF
    exact ⟨_, hparseF, parseRowD (mkOrderRow s nowIso b ps),
      List.mem_map.mpr ⟨_, (mem_sortOrdersDesc _ _).mpr hrowF, rfl⟩,
      rfl, parseRowD_photos _ ps rfl⟩

/-- C1 witness: creating an order with photos p1,p2,p3 on the fresh
database stores photo_count 3 and reads back exactly that list. -/
theorem c1_witness :
    ∃ s2 id, createOrder initDB "T0"
        ⟨some "Ann", some "a@x.com", some "Spring", some "g1", some ["p1", "p2", "p3"], none⟩ =
        (s2, Resp.created id) ∧
      (∃ row ∈ s2.orders, row.id = id ∧ row.photo_count = (["p1", "p2", "p3"] : List String).length ∧
        row.photos = stringifyPhotos ["p1", "p2", "p3"]) ∧
      (∃ outs, listAllOrders s2 = some outs ∧
        (∃ o ∈ outs, o.id = id ∧ o.photos = ["p1", "p2", "p3"] ∧
          o.photo_count = (["p1", "p2", "p3"] : List String).length) ∧
        (∀ o ∈ outs, o.id = id → o.photos = ["p1", "p2", "p3"] ∧
          o.photo_count = (["p1", "p2", "p3"] : List String).length)) ∧
      (∃ outs, listByGallery s2 ((some "g1").getD "") = some outs ∧
        ∃ o ∈ outs, o.id = id ∧ o.photos = ["p1", "p2", "p3"]) :=
  c1_order_roundtrip initDB Reachable.init "T0"
    ⟨some "Ann", some "a@x.com", some "Spring", some "g1", some ["p1", "p2", "p3"], none⟩
    ["p1", "p2", "p3"] rfl rfl rfl rfl rfl

/-- Auxiliary: no request ever decreases the guests AUTOINCREMENT
counter (deletes leave it untouched, which is what AUTOINCREMENT
guarantees). -/
theorem nextGuestId_mono (s : DB) (r : Req) :
    s.nextGuestId ≤ (applyReq s r).1.nextGuestId := by
  cases r with
  | postGuest nowIso b =>
    simp only [applyReq]
    unfold createGuest
    split
    · exact Nat.le_refl _
    · exact Nat.le_succ _
  | postOrder nowIso b =>
    simp only [applyReq]
    unfold createOrder
    cases b.photos with
    | none => exact Nat.le_refl _
    | some ps =>
      dsimp only
      split
      · exact Nat.le_refl _
      · exact Nat.le_refl _
  | deleteGuest id => exact Nat.le_refl _
  | deleteOrder id => exact Nat.le_refl _
  | clearGuests => exact Nat.le_refl _
  | clearOrders => exact Nat.le_refl _

/-- Auxiliary: every id collected along a trace is at least the current
value of the guests counter. -/
theorem guestCreatedIds_lb :
    ∀ (rs : List Req) (s : DB) (i : Nat), i ∈ guestCreatedIds s rs → s.nextGuestId ≤ i := by
  intro rs
  induction rs with
  | nil => intro s i h; simp [guestCreatedIds] at h
  | cons r rs ih =>
    intro s i h
    cases r with
    | postGuest nowIso b =>
      by_cases hv : (!truthy b.name || !truthy b.email || !truthy b.galleryName ||
          !truthy b.galleryId) = true
      · have hcg : createGuest s nowIso b = (s, Resp.badRequest "Missing required fields") := by
          unfold createGuest
          rw [if_pos hv]
        simp only [guestCreatedIds, applyReq, hcg] at h
        exact ih s i h
      · have hcg : ∃ s2, createGuest s nowIso b = (s2, Resp.created s.nextGuestId) ∧
            s2.nextGuestId = s.nextGuestId + 1 := by
          unfold createGuest
          rw [if_neg hv]
          exact ⟨_, rfl, rfl⟩
        obtain ⟨s2, hcg, hs2⟩ := hcg
        simp only [guestCreatedIds, applyReq, hcg, List.mem_cons] at h
        rcases h with h | h
        · omega
        · have := ih s2 i h
          omega
    | postOrder nowIso b =>
      simp only [guestCreatedIds, applyReq] at h
      have hle := nextGuestId_mono s (Req.postOrder nowIso b)
      simp only [applyReq] at hle
      exact Nat.le_trans hle (ih _ i h)
    | deleteGuest id =>
      simp only [guestCreatedIds, applyReq] at h
      exact ih (deleteGuestById s id).1 i h
    | deleteOrder id =>
      simp only [guestCreatedIds, applyReq] at h
      exact ih (deleteOrderById s id).1 i h
    | clearGuests =>
      simp only [guestCreatedIds, applyReq] at h
      exact ih (deleteAllGuests s).1 i h
    | clearOrders =>
      simp only [guestCreatedIds, applyReq] at h
      exact ih (deleteAllOrders s).1 i h

/-- Auxiliary: the collected ids are pairwise strictly increasing from
any starting state. -/
theorem guestCreatedIds_pairwise :
    ∀ (rs : List Req) (s : DB), (guestCreatedIds s rs).Pairwise (· < ·) := by
  intro rs
  induction rs with
  | nil => intro s; simp [guestCreatedIds]
  | cons r rs ih =>
    intro s
    cases r with
    | postGuest nowIso b =>
      by_cases hv : (!truthy b.name || !truthy b.email || !truthy b.galleryName ||
          !truthy b.galleryId) = true
      · have hcg : createGuest s nowIso b = (s, Resp.badRequest "Missing required fields") := by
          unfold createGuest
          rw [if_pos hv]
        simp only [guestCreatedIds, applyReq, hcg]
        exact ih s
      · have hcg : ∃ s2, createGuest s nowIso b = (s2, Resp.created s.nextGuestId) ∧
            s2.nextGuestId = s.nextGuestId + 1 := by
          unfold createGuest
          rw [if_neg hv]
          exact ⟨_, rfl, rfl⟩
        obtain ⟨s2, hcg, hs2⟩ := hcg
        simp only [guestCreatedIds, applyReq, hcg]
        refine List.Pairwise.cons ?_ (ih s2)
        intro i hi
        have := guestCreatedIds_lb rs s2 i hi
        omega
    | postOrder nowIso b =>
      simp only [guestCreatedIds, applyReq]
      exact ih _
    | deleteGuest id =>
      simp only [guestCreatedIds, applyReq]
      exact ih _
    | deleteOrder id =>
      simp only [guestCreatedIds, applyReq]
      exact ih _
    | clearGuests =>
      simp only [guestCreatedIds, applyReq]
      exact ih _
    | clearOrders =>
      simp only [guestCreatedIds, applyReq]
      exact ih _

/-- C8: over any sequence of requests from a fresh process (creates and
both kinds of deletes interleaved arbitrarily), the ids returned by the
successful guest creates are strictly increasing in submission order,
hence pairwise unique. -/
theorem c8_guest_ids_strictly_increasing (reqs : List Req) :
    (guestCreatedIds initDB reqs).Pairwise (· < ·) ∧
    (guestCreatedIds initDB reqs).Nodup := by
  have hp := guestCreatedIds_pairwise reqs initDB
  exact ⟨hp, hp.imp Nat.ne_of_lt⟩

/-- Auxiliary: character-level shape of `join("\n")` with a head line:
the head first, then every further line preceded by one newline. -/
theorem joinNewline_data (h : String) (rest : List String) :
    (joinNewline (h :: rest)).data =
      h.data ++ (rest.map fun x => '\n' :: x.data).flatten := by
  induction rest generalizing h with
  | nil => simp [joinNewline]
  | cons x xs ih =>
    show (joinNewline (h :: x :: xs)).data = _
    have : joinNewline (h :: x :: xs) = h ++ "\n" ++ joinNewline (x :: xs) := rfl
    rw [this]
    simp only [String.data_append, ih x, List.map_cons, List.flatten_cons]
    simp

/-- C9: both CSV exports start with their fixed header line, then render
exactly the rows sorted newest first, one line per row after a newline;
within a line the numeric id (and photo_count for orders) is unquoted
while every text field is wrapped in double quotes with its value
inserted verbatim — in particular embedded quote characters are not
escaped. -/
theorem c9_export_csv (s : DB) :
    (exportGuestsCsv s).data =
      guestCsvHeader.data ++
        (((sortGuestsDesc s.guests).map renderGuestRow).map fun x => '\n' :: x.data).flatten ∧
    (exportOrdersCsv s).data =
      orderCsvHeader.data ++
        (((sortOrdersDesc s.orders).map renderOrderRow).map fun x => '\n' :: x.data).flatten ∧
    ((sortGuestsDesc s.guests).Pairwise createdGeG ∧
      List.Perm (sortGuestsDesc s.guests) s.guests) ∧
    ((sortOrdersDesc s.orders).Pairwise createdGeO ∧
      List.Perm (sortOrdersDesc s.orders) s.orders) ∧
    (∀ r : GuestRow, (renderGuestRow r).data =
      (toString r.id).data ++ ',' :: '"' :: r.name.data ++ '"' :: ',' :: '"' :: r.email.data ++
      '"' :: ',' :: '"' :: r.gallery_name.data ++ '"' :: ',' :: '"' :: r.gallery_id.data ++
      '"' :: ',' :: '"' :: r.visit_date.data ++
      '"' :: ',' :: '"' :: (toString r.created_at).data ++ ['"']) ∧
    (∀ r : OrderRow, (renderOrderRow r).data =
      (toString r.id).data ++ ',' :: '"' :: r.name.data ++ '"' :: ',' :: '"' :: r.email.data ++
      '"' :: ',' :: '"' :: r.gallery_name.data ++ '"' :: ',' :: '"' :: r.gallery_id.data ++
      '"' :: ',' :: (toString r.photo_count).data ++ ',' :: '"' :: r.submitted_at.data ++
      '"' :: ',' :: '"' :: (toString r.created_at).data ++ ['"']) := by
  refine ⟨?_, ?_, ⟨?_, ?_⟩, ⟨?_, ?_⟩, ?_, ?_⟩
  · exact joinNewline_data guestCsvHeader _
  · exact joinNewline_data orderCsvHeader _
  · exact List.sorted_insertionSort createdGeG s.guests
  · exact List.perm_insertionSort createdGeG s.guests
  · exact List.sorted_insertionSort createdGeO s.orders
  · exact List.perm_insertionSort createdGeO s.orders
  · intro r
    unfold renderGuestRow
    simp only [String.data_append]
    simp
  · intro r
    unfold renderOrderRow
    simp only [String.data_append]
    simp
